import Mathlib

/-
Verification of the change-tracking and synchronization core of the
libldap-- directory-record abstraction (translated from src/entry.cc).

The C++ record keeps three std::map fields keyed by attr name:
  _data    : the current attr values (CurrentState)
  _added   : values staged for addition (PendingDelta.toAdd)
  _removed : values staged for removal (PendingDelta.toRemove)
std::map iterates its keys in sorted (lexicographic) order, so the maps
are modelled as association lists kept sorted by key: mapSet inserts at
the sorted position or overwrites in place, exactly as std::map does.
-/

namespace LdapClient

/-- Lookup in an association list, as std::map::find / operator[] read. -/
def mapFind {α : Type} : List (String × α) → String → Option α
  | [], _ => none
  | (k', v') :: rest, k => if k = k' then some v' else mapFind rest k

/-- Write through std::map::operator[]: overwrite the value of an existing
key in place, or insert the new key at its sorted position. -/
def mapSet {α : Type} : List (String × α) → String → α → List (String × α)
  | [], k, v => [(k, v)]
  | (k', v') :: rest, k, v =>
    if k = k' then (k, v) :: rest
    else if k < k' then (k, v) :: (k', v') :: rest
    else (k', v') :: mapSet rest k v

/-- std::map::erase by key. -/
def mapErase {α : Type} : List (String × α) → String → List (String × α)
  | [], _ => []
  | (k', v') :: rest, k => if k = k' then rest else (k', v') :: mapErase rest k

/-- The record state of LDAPEntry: DN, the `_isnew` flag, and the three
attr maps `_data`, `_added`, `_removed` of src/entry.cc. The
connection pointer is dropped: the collaborator is passed explicitly to
Sync as the result code it returns. -/
structure LDAPEntry where
  dn : String
  isnew : Bool
  data : List (String × List String)
  added : List (String × List String)
  removed : List (String × List String)
deriving Repr, DecidableEq

/-- Constructor LDAPEntry(conn, dn): an entirely new entry, `_isnew = true`,
all maps empty. -/
def newEntry (dn : String) : LDAPEntry :=
  { dn := dn, isnew := true, data := [], added := [], removed := [] }

/-- Constructor LDAPEntry(conn, entry): hydrate from raw attr data read
from the directory; `_isnew = false`, `_data[attr] = values` for each raw
attr in discovery order, delta maps empty. -/
def hydrateEntry (dn : String) (raw : List (String × List String)) : LDAPEntry :=
  { dn := dn, isnew := false,
    data := raw.foldl (fun m p => mapSet m p.1 p.2) [],
    added := [], removed := [] }

/-- LDAPEntry::GetDN. -/
def GetDN (e : LDAPEntry) : String :=
  e.dn

/-- LDAPEntry::GetKeys: push each key of `_data` in map iteration order. -/
def GetKeys (e : LDAPEntry) : List String :=
  e.data.map Prod.fst

/-- LDAPEntry::GetValue: `return _data[attribute];`. operator[] on a missing
key default-inserts an empty value list before returning it, so the call
returns the values AND the possibly grown record. -/
def GetValue (e : LDAPEntry) (attr : String) : List String × LDAPEntry :=
  match mapFind e.data attr with
  | some vs => (vs, e)
  | none => ([], { e with data := mapSet e.data attr [] })

/-- LDAPEntry::GetFirstValue: empty string when find fails, otherwise
`_data[attribute].front()`. front() of an empty vector is undefined
behaviour, modelled as `none` via List.head?. -/
def GetFirstValue (e : LDAPEntry) (attr : String) : Option String :=
  match mapFind e.data attr with
  | none => some ""
  | some vs => vs.head?

/-- LDAPEntry::AddValue: push value onto `_data[attribute]` and onto
`_added[attribute]`, creating either entry when absent. -/
def AddValue (e : LDAPEntry) (attr value : String) : LDAPEntry :=
  { e with
    data := mapSet e.data attr (((mapFind e.data attr).getD []) ++ [value]),
    added := mapSet e.added attr (((mapFind e.added attr).getD []) ++ [value]) }

/-- LDAPEntry::RemoveValue: bail out if the key is absent from `_data`;
otherwise scan `_data[attribute]` and, for every element equal to value,
push value onto `_removed[attribute]` (created on first match). The scan
does not erase the matched elements from `_data[attribute]`; the final
`if (_data[attribute].empty()) _data.erase(attr);` therefore fires
only when the value list was already empty on entry. -/
def RemoveValue (e : LDAPEntry) (attr value : String) : LDAPEntry :=
  match mapFind e.data attr with
  | none => e
  | some vs =>
    let e1 :=
      if vs.count value = 0 then e
      else { e with removed :=
               mapSet e.removed attr (((mapFind e.removed attr).getD []) ++
                 List.replicate (vs.count value) value) }
    if vs.isEmpty then { e1 with data := mapErase e1.data attr } else e1

/-- LDAPEntry::RemoveAllValues: bail out if the key is absent; otherwise
push every current value onto `_removed[attribute]` (created on the first
iteration) and erase the key from `_data` unconditionally. -/
def RemoveAllValues (e : LDAPEntry) (attr : String) : LDAPEntry :=
  match mapFind e.data attr with
  | none => e
  | some vs =>
    let e1 :=
      if vs.isEmpty then e
      else { e with removed :=
               mapSet e.removed attr (((mapFind e.removed attr).getD []) ++ vs) }
    { e1 with data := mapErase e1.data attr }

/-- Operation kind of an LDAPMod: LDAP_MOD_DELETE or LDAP_MOD_ADD. -/
inductive ModOp where
  | DELETE
  | ADD
deriving Repr, DecidableEq

/-- One LDAPMod built by Sync: operation, mod_type (attr name) and
mod_vals (the staged values, without the trailing null terminator). -/
structure LdapMod where
  op : ModOp
  type : String
  vals : List String
deriving Repr, DecidableEq

/-- The mods vector built by LDAPEntry::Sync: one LDAP_MOD_DELETE entry per
key of `_removed` in map order, then one LDAP_MOD_ADD entry per key of
`_added` in map order (the trailing null pointer is dropped). -/
def buildMods (e : LDAPEntry) : List LdapMod :=
  e.removed.map (fun p => { op := ModOp.DELETE, type := p.1, vals := p.2 }) ++
  e.added.map (fun p => { op := ModOp.ADD, type := p.1, vals := p.2 })

/-- The single request Sync hands to the collaborator: the DN, whether it is
submitted through ldap_add_ext_s (`_isnew`) or ldap_modify_ext_s, and the
mods vector. -/
structure SyncRequest where
  dn : String
  isCreate : Bool
  mods : List LdapMod
deriving Repr, DecidableEq

def LDAP_SUCCESS : Nat := 0

/-- The request LDAPEntry::Sync submits. -/
def syncRequest (e : LDAPEntry) : SyncRequest :=
  { dn := e.dn, isCreate := e.isnew, mods := buildMods e }

/-- LDAPEntry::Sync, parameterised by the result code rc the collaborator
(ldap_add_ext_s / ldap_modify_ext_s) returns. The result is the submitted
request, the exception raised through LDAPErrCode2Exception when rc is not
LDAP_SUCCESS, and the entry state after the call: Sync only frees its
local buffers, it writes none of `_data`, `_added`, `_removed`, `_isnew`,
so that state is returned unchanged on success and on failure alike. -/
def Sync (e : LDAPEntry) (rc : Nat) : SyncRequest × Option Nat × LDAPEntry :=
  (syncRequest e, if rc = LDAP_SUCCESS then none else some rc, e)

/-- Modelled from the spec: the source has no HasPendingChanges method; the
spec defines it as true if either delta map is non-empty. -/
def HasPendingChanges (e : LDAPEntry) : Bool :=
  !(e.added.isEmpty && e.removed.isEmpty)

/-- One item written by LDAPEntry::Output: an attribute/value line produced
through ldif_put_wrap(LDIF_PUT_VALUE, attr, v), or a comment line produced
through ldif_put_wrap(LDIF_PUT_COMMENT, 0, text). -/
inductive LdifItem where
  | value (attr : String) (v : String)
  | comment (text : String)
deriving Repr, DecidableEq

def k_NewItemsString : String := "All items in this file are new."

/-- The value lines for one attr map, attributes in map order, one item
per value. -/
def ldifPairs (m : List (String × List String)) : List LdifItem :=
  (m.map (fun p => p.2.map (fun v => LdifItem.value p.1 v))).flatten

/-- LDAPEntry::Output as the sequence of items it writes: the dn line, then
either (when `_data` is empty) the k_NewItemsString comment followed by the
`_added` view, or the `_data` view. The ldif_put_wrap collaborator is
abstracted as always succeeding. -/
def Output (e : LDAPEntry) : List LdifItem :=
  LdifItem.value "dn" e.dn ::
    (if e.data.isEmpty then
      LdifItem.comment k_NewItemsString :: ldifPairs e.added
    else
      ldifPairs e.data)

/-- Modelled from the spec words of claim C5, for comparison only: a create
batch whose attr set equals the full CurrentState, one ADD operation
per current attribute. -/
def createBatchFromCurrentState (e : LDAPEntry) : List LdapMod :=
  e.data.map (fun p => { op := ModOp.ADD, type := p.1, vals := p.2 })

end LdapClient

namespace LdapClient

/-- Reading back the key just written through mapSet yields the value. -/
theorem mapFind_mapSet_self {α : Type} (m : List (String × α)) (k : String) (v : α) :
    mapFind (mapSet m k v) k = some v := by
  induction m with
  | nil => simp [mapSet, mapFind]
  | cons p rest ih =>
    obtain ⟨k', v'⟩ := p
    by_cases h1 : k = k'
    · simp [mapSet, h1, mapFind]
    · by_cases h2 : k < k'
      · simp [mapSet, h1, h2, mapFind]
      · simp [mapSet, h1, h2, mapFind, ih]

/-- A key written through mapSet is among the map keys. -/
theorem mem_keys_mapSet {α : Type} (m : List (String × α)) (k : String) (v : α) :
    k ∈ (mapSet m k v).map Prod.fst := by
  induction m with
  | nil => simp [mapSet]
  | cons p rest ih =>
    obtain ⟨k', v'⟩ := p
    by_cases h1 : k = k'
    · simp [mapSet, h1]
    · by_cases h2 : k < k'
      · simp [mapSet, h1, h2]
      · simp [mapSet, h1, h2, ih]

/-- The attribute/value view contains value items only, never a comment. -/
theorem comment_not_mem_ldifPairs (m : List (String × List String)) (s : String) :
    LdifItem.comment s ∉ ldifPairs m := by
  simp [ldifPairs]
  intro x k vs _ hx
  subst hx
  simp

end LdapClient

namespace LdapClient

/-- C1: the claim says RemoveValue records the value into toRemove once per
occurrence AND removes every occurrence from CurrentState immediately, so
that for cn = [Bob, Robert], after RemoveValue(cn, Robert) GetValues(cn)
equals [Bob]. The code records the value into toRemove but never erases
the occurrences from CurrentState: at the failing input the removal is
staged in toRemove, yet GetValues(cn) still returns [Bob, Robert]. -/
theorem removeValue_leaves_current_state :
    (GetValue (RemoveValue (hydrateEntry "cn=bob,ou=people" [("cn", ["Bob", "Robert"])])
        "cn" "Robert") "cn").1 = ["Bob", "Robert"] ∧
    mapFind (RemoveValue (hydrateEntry "cn=bob,ou=people" [("cn", ["Bob", "Robert"])])
        "cn" "Robert").removed "cn" = some ["Robert"] := by
  decide

/-- C2: the claim says a successful Sync clears the pending delta entirely
and sets isNew to false. The code never clears the delta maps and never
writes the isNew flag: after a successful Sync of a new entry with one
staged addition, HasPendingChanges is still true and isnew is still true. -/
theorem sync_success_keeps_delta_and_isnew :
    (Sync (AddValue (newEntry "uid=bob,ou=people") "cn" "Bob") LDAP_SUCCESS).2.1 = none ∧
    (Sync (AddValue (newEntry "uid=bob,ou=people") "cn" "Bob") LDAP_SUCCESS).2.2.isnew = true ∧
    HasPendingChanges
      (Sync (AddValue (newEntry "uid=bob,ou=people") "cn" "Bob") LDAP_SUCCESS).2.2 = true := by
  decide

/-- C3: for every record, the operation batch built by Sync is a block of
DELETE operations followed by a block of ADD operations, with one DELETE
operation per key of toRemove and one ADD operation per key of toAdd, so
every DELETE operation precedes every ADD operation. -/
theorem sync_deletes_before_adds (e : LDAPEntry) :
    ∃ dels adds, buildMods e = dels ++ adds ∧
      (∀ m ∈ dels, m.op = ModOp.DELETE) ∧
      (∀ m ∈ adds, m.op = ModOp.ADD) ∧
      dels.map (fun m => (m.type, m.vals)) = e.removed ∧
      adds.map (fun m => (m.type, m.vals)) = e.added := by
  refine ⟨_, _, rfl, ?_, ?_, ?_, ?_⟩
  · intro m hm
    obtain ⟨p, hp, hpm⟩ := List.mem_map.mp hm
    subst hpm
    rfl
  · intro m hm
    obtain ⟨p, hp, hpm⟩ := List.mem_map.mp hm
    subst hpm
    rfl
  · induction e.removed with
    | nil => rfl
    | cons p rest ih => simp_all
  · induction e.added with
    | nil => rfl
    | cons p rest ih => simp_all

/-- C4: for every record, when the collaborator returns a non-success code,
Sync raises that code as an error and leaves CurrentState, toAdd and
toRemove exactly as they were before the call. -/
theorem sync_failure_preserves_state (e : LDAPEntry) (rc : Nat) (h : rc ≠ LDAP_SUCCESS) :
    (Sync e rc).2.1 = some rc ∧
    (Sync e rc).2.2.data = e.data ∧
    (Sync e rc).2.2.added = e.added ∧
    (Sync e rc).2.2.removed = e.removed := by
  simp [Sync, h]

/-- Witness for C4: a failed Sync (result code 32) of a hydrated entry
raises the code and preserves all three maps. -/
theorem sync_failure_preserves_state_witness :
    (Sync (hydrateEntry "cn=bob,dc=x" [("cn", ["Bob"])]) 32).2.1 = some 32 ∧
    (Sync (hydrateEntry "cn=bob,dc=x" [("cn", ["Bob"])]) 32).2.2.data =
      (hydrateEntry "cn=bob,dc=x" [("cn", ["Bob"])]).data ∧
    (Sync (hydrateEntry "cn=bob,dc=x" [("cn", ["Bob"])]) 32).2.2.added =
      (hydrateEntry "cn=bob,dc=x" [("cn", ["Bob"])]).added ∧
    (Sync (hydrateEntry "cn=bob,dc=x" [("cn", ["Bob"])]) 32).2.2.removed =
      (hydrateEntry "cn=bob,dc=x" [("cn", ["Bob"])]).removed :=
  sync_failure_preserves_state (hydrateEntry "cn=bob,dc=x" [("cn", ["Bob"])]) 32 (by decide)

end LdapClient

namespace LdapClient

/-- Counterexample for C5: a new entry built by AddValue(cn, Bob) followed by
RemoveAllValues(cn) has isNew true and an empty CurrentState, yet the
create request Sync submits carries a non-empty delta-derived batch (a
DELETE and an ADD for cn), not the batch derived from CurrentState. -/
theorem sync_create_ignores_current_state :
    (RemoveAllValues (AddValue (newEntry "uid=bob,ou=people") "cn" "Bob") "cn").isnew = true ∧
    (syncRequest
        (RemoveAllValues (AddValue (newEntry "uid=bob,ou=people") "cn" "Bob") "cn")).mods ≠
      createBatchFromCurrentState
        (RemoveAllValues (AddValue (newEntry "uid=bob,ou=people") "cn" "Bob") "cn") := by
  decide

/-- C5 as amended: Sync submits the batch as a create exactly when isNew is
true and as a modify otherwise, and in both cases the batch is built from
the delta maps, not from CurrentState; when toRemove is empty the batch is
one ADD operation per key of toAdd, and it coincides with the batch
derived from the full CurrentState exactly in the case where additionally
toAdd equals CurrentState (as for a new record built only by AddValue). -/
theorem sync_create_uses_delta (e : LDAPEntry) :
    (syncRequest e).isCreate = e.isnew ∧
    (e.removed = [] →
      (syncRequest e).mods =
        e.added.map (fun p => { op := ModOp.ADD, type := p.1, vals := p.2 })) ∧
    (e.removed = [] → e.added = e.data →
      (syncRequest e).mods = createBatchFromCurrentState e) := by
  refine ⟨rfl, ?_, ?_⟩
  · intro h
    simp [syncRequest, buildMods, h]
  · intro h1 h2
    simp [syncRequest, buildMods, createBatchFromCurrentState, h1, h2]

/-- Witness for C5 as amended: a new record with two staged additions and no
removals submits a create whose batch equals the CurrentState-derived one. -/
theorem sync_create_uses_delta_witness :
    (syncRequest (AddValue (AddValue (newEntry "uid=bob,ou=people") "cn" "Bob")
        "mail" "bob@x.com")).mods =
      createBatchFromCurrentState
        (AddValue (AddValue (newEntry "uid=bob,ou=people") "cn" "Bob") "mail" "bob@x.com") :=
  (sync_create_uses_delta
      (AddValue (AddValue (newEntry "uid=bob,ou=people") "cn" "Bob") "mail" "bob@x.com")).2.2
    rfl rfl

/-- C6: for every record and attribute name, GetValues returns the current
value list of that name when present, and the empty sequence, never an
error, when the name is absent from CurrentState. -/
theorem getValue_total (e : LDAPEntry) (name : String) :
    (mapFind e.data name = none → (GetValue e name).1 = []) ∧
    (∀ vs, mapFind e.data name = some vs → (GetValue e name).1 = vs) := by
  constructor
  · intro h
    simp [GetValue, h]
  · intro vs h
    simp [GetValue, h]

/-- Witness for C6: on a record hydrated with cn = [Bob], GetValues(mail)
returns the empty sequence and GetValues(cn) returns [Bob]. -/
theorem getValue_total_witness :
    (GetValue (hydrateEntry "uid=a,ou=p" [("cn", ["Bob"])]) "mail").1 = [] ∧
    (GetValue (hydrateEntry "uid=a,ou=p" [("cn", ["Bob"])]) "cn").1 = ["Bob"] :=
  ⟨(getValue_total (hydrateEntry "uid=a,ou=p" [("cn", ["Bob"])]) "mail").1 (by decide),
   (getValue_total (hydrateEntry "uid=a,ou=p" [("cn", ["Bob"])]) "cn").2 ["Bob"] (by decide)⟩

end LdapClient

namespace LdapClient

/-- Counterexample for C7: after GetValues(mail) on a record where mail is
absent, the key mail is present in CurrentState with an empty value list;
GetFirstValue(mail) then takes the front of that empty list (undefined
behaviour, modelled as none) instead of returning the empty string, so the
error branch is reachable. -/
theorem getFirstValue_error_branch_reachable :
    GetFirstValue ((GetValue (newEntry "uid=a,ou=p") "mail").2) "mail" = none := by
  rfl

/-- C7 as amended: GetFirstValue returns the first value in insertion order
when the attribute holds at least one value, and the empty string when the
attribute is absent from CurrentState; but when the attribute is present
with an empty value list (a state reachable by calling GetValues on an
absent name), it takes the front of the empty list, so the error branch is
reachable rather than unreachable. -/
theorem getFirstValue_cases (e : LDAPEntry) (name : String) :
    (mapFind e.data name = none → GetFirstValue e name = some "") ∧
    (∀ v vs, mapFind e.data name = some (v :: vs) → GetFirstValue e name = some v) ∧
    (mapFind e.data name = some [] → GetFirstValue e name = none) := by
  refine ⟨?_, ?_, ?_⟩
  · intro h
    simp [GetFirstValue, h]
  · intro v vs h
    simp [GetFirstValue, h]
  · intro h
    simp [GetFirstValue, h]

/-- Witness for C7 as amended: on a record hydrated with cn = [Bob],
GetFirstValue(cn) is Bob and GetFirstValue(mail) is the empty string. -/
theorem getFirstValue_cases_witness :
    GetFirstValue (hydrateEntry "uid=a,ou=p" [("cn", ["Bob"])]) "cn" = some "Bob" ∧
    GetFirstValue (hydrateEntry "uid=a,ou=p" [("cn", ["Bob"])]) "mail" = some "" :=
  ⟨(getFirstValue_cases (hydrateEntry "uid=a,ou=p" [("cn", ["Bob"])]) "cn").2.1
      "Bob" [] (by decide),
   (getFirstValue_cases (hydrateEntry "uid=a,ou=p" [("cn", ["Bob"])]) "mail").1 (by decide)⟩

/-- C8: for every record, attribute name and value, AddValue appends the
value both to CurrentState and to toAdd for that name, creating either key
when absent and deduplicating nothing: a second identical call leaves two
occurrences in each list. -/
theorem addValue_appends (e : LDAPEntry) (n v : String) :
    mapFind (AddValue e n v).data n = some (((mapFind e.data n).getD []) ++ [v]) ∧
    mapFind (AddValue e n v).added n = some (((mapFind e.added n).getD []) ++ [v]) ∧
    mapFind (AddValue (AddValue e n v) n v).data n =
      some (((mapFind e.data n).getD []) ++ [v, v]) ∧
    mapFind (AddValue (AddValue e n v) n v).added n =
      some (((mapFind e.added n).getD []) ++ [v, v]) := by
  refine ⟨?_, ?_, ?_, ?_⟩ <;>
    simp [AddValue, mapFind_mapSet_self, List.append_assoc]

end LdapClient

namespace LdapClient

/-- Counterexample for C9: a brand-new record with empty CurrentState and an
empty toAdd still gets the explanatory comment in its output, although the
claim allows the comment exactly when toAdd is non-empty. -/
theorem output_comment_despite_empty_toAdd :
    (newEntry "uid=x").added = [] ∧
    LdifItem.comment k_NewItemsString ∈ Output (newEntry "uid=x") := by
  constructor
  · rfl
  · simp [Output, newEntry, ldifPairs]

/-- C9 as amended: Output serializes the CurrentState view when CurrentState
is non-empty, and serializes the pending-add view preceded by the
explanatory comment exactly when CurrentState is empty, whether or not
toAdd is non-empty; the selection between the two views depends only on
CurrentState emptiness. -/
theorem output_view_selection (e : LDAPEntry) :
    (LdifItem.comment k_NewItemsString ∈ Output e ↔ e.data = []) ∧
    (e.data = [] →
      Output e = LdifItem.value "dn" e.dn ::
        LdifItem.comment k_NewItemsString :: ldifPairs e.added) ∧
    (e.data ≠ [] → Output e = LdifItem.value "dn" e.dn :: ldifPairs e.data) := by
  refine ⟨?_, ?_, ?_⟩
  · by_cases h : e.data = []
    · simp [Output, h]
    · simp [Output, h, comment_not_mem_ldifPairs]
  · intro h
    simp [Output, h]
  · intro h
    simp [Output, h, comment_not_mem_ldifPairs]

/-- Witness for C9 as amended: a record hydrated with cn = [Bob] has
non-empty CurrentState, so its output is the dn line followed by the
CurrentState view and carries no comment. -/
theorem output_view_selection_witness :
    (LdifItem.comment k_NewItemsString ∈
        Output (hydrateEntry "uid=a,ou=p" [("cn", ["Bob"])]) ↔
      (hydrateEntry "uid=a,ou=p" [("cn", ["Bob"])]).data = []) ∧
    Output (hydrateEntry "uid=a,ou=p" [("cn", ["Bob"])]) =
      LdifItem.value "dn" (hydrateEntry "uid=a,ou=p" [("cn", ["Bob"])]).dn ::
        ldifPairs (hydrateEntry "uid=a,ou=p" [("cn", ["Bob"])]).data :=
  ⟨(output_view_selection (hydrateEntry "uid=a,ou=p" [("cn", ["Bob"])])).1,
   (output_view_selection (hydrateEntry "uid=a,ou=p" [("cn", ["Bob"])])).2.2 (by decide)⟩

/-- C10: for every record and attribute name absent from CurrentState,
GetValues(name) returns the empty sequence and also inserts the name into
CurrentState with an empty value list, so GetKeys() afterwards contains
the name: the query is not free of side effects. -/
theorem getValue_inserts_absent_key (e : LDAPEntry) (name : String)
    (h : mapFind e.data name = none) :
    (GetValue e name).1 = [] ∧
    mapFind (GetValue e name).2.data name = some [] ∧
    name ∈ GetKeys (GetValue e name).2 := by
  refine ⟨?_, ?_, ?_⟩
  · simp [GetValue, h]
  · simp [GetValue, h, mapFind_mapSet_self]
  · simp only [GetValue, h, GetKeys]
    exact mem_keys_mapSet e.data name []

/-- Witness for C10: on a record hydrated with cn = [Bob], GetValues(mail)
returns the empty sequence and leaves mail among the keys. -/
theorem getValue_inserts_absent_key_witness :
    (GetValue (hydrateEntry "uid=a,ou=p" [("cn", ["Bob"])]) "mail").1 = [] ∧
    mapFind (GetValue (hydrateEntry "uid=a,ou=p" [("cn", ["Bob"])]) "mail").2.data
      "mail" = some [] ∧
    "mail" ∈ GetKeys (GetValue (hydrateEntry "uid=a,ou=p" [("cn", ["Bob"])]) "mail").2 :=
  getValue_inserts_absent_key (hydrateEntry "uid=a,ou=p" [("cn", ["Bob"])]) "mail" (by decide)

end LdapClient
